import Mathlib

/-
  Verification of the OpenEVSE PV load-manager core.

  Shallow embedding of the allocation engine (load_manager.compute_allocations),
  the PV estimator (pv_monitor), the command dispatcher (evse_manager.set_current)
  and the persistence round-trip, over exact rational arithmetic.
-/

namespace OpenEVSE

/-- Charging station states (models.StationState). -/
inductive StationState where
  | OFFLINE
  | IDLE
  | CHARGING
  | PAUSED
  | ERROR
  | NOT_CONNECTED
deriving DecidableEq

/-- Load manager operation modes (models.OperationMode). -/
inductive OperationMode where
  | PV_ONLY
  | PV_PLUS_GRID
deriving DecidableEq

/-- The string value of each mode (the Enum value in models.py). -/
def OperationMode.value : OperationMode → String
  | .PV_ONLY => "pv_only"
  | .PV_PLUS_GRID => "pv_plus_grid"

/-- The Enum constructor OperationMode(str): the member with that value, if any. -/
def OperationMode.ofValue (s : String) : Option OperationMode :=
  if s = "pv_only" then some OperationMode.PV_ONLY
  else if s = "pv_plus_grid" then some OperationMode.PV_PLUS_GRID
  else none

/- Constants from const.py. -/

def MIN_STATION_CURRENT : ℚ := 6

def MAX_RAMP_UP_STEP : ℚ := 4

def PV_STALE_TIMEOUT : ℚ := 60

def CLOUD_DETECTION_VARIANCE_THRESHOLD : ℚ := 500

def ACTUAL_TOLERANCE : ℚ := 1

def SLACK_BUFFER : ℚ := 1/2

def OVERBOOKING_ITERATIONS : ℕ := 3

def SAFETY_MARGIN : ℚ := 2

/-- A single PV power measurement (models.PVSample). -/
structure PVSample where
  value : ℚ
  timestamp : ℚ
deriving DecidableEq

/-- PV monitoring data (models.PVData); surplus_w is the latest surplus. -/
structure PVData where
  surplus_w : ℚ := 0
  last_update : ℚ := 0
  history : List PVSample := []
deriving DecidableEq

/-- Modelled from the spec: the HA-variant StationStatus record.  load_manager.py
imports and uses it (station_id, actual_current, state, vehicle_connected) but its
class definition is not among the provided sources; fields follow spec section 3. -/
structure StationStatus where
  station_id : ℕ
  actual_current : ℚ := 0
  state : StationState := StationState.OFFLINE
  vehicle_connected : Bool := false
deriving DecidableEq

/-- Modelled from the spec: StationStatus eligibility - a station is eligible iff
vehicle_connected == true and state is one of IDLE, CHARGING, PAUSED (spec 4.C);
the property itself is referenced at load_manager.py line 205. -/
def StationStatus.is_active (s : StationStatus) : Bool :=
  s.vehicle_connected &&
    (decide (s.state = StationState.IDLE) || decide (s.state = StationState.CHARGING) ||
      decide (s.state = StationState.PAUSED))

/-- StationStatus.is_charging: state == CHARGING. -/
def StationStatus.is_charging (s : StationStatus) : Bool :=
  decide (s.state = StationState.CHARGING)

/- Association lists standing for the python dicts keyed by station id
(insertion ordered, unique keys in the program). -/

/-- dict.get(k): first value stored under key k, if any. -/
def lookupO {α : Type} (m : List (ℕ × α)) (k : ℕ) : Option α :=
  match m with
  | [] => none
  | p :: t => if p.1 = k then some p.2 else lookupO t k

/-- dict.get(k, d): value under key k, or the default d. -/
def lookupD {α : Type} (m : List (ℕ × α)) (k : ℕ) (d : α) : α :=
  (lookupO m k).getD d

/-- dict.keys(). -/
def akeys {α : Type} (m : List (ℕ × α)) : List ℕ :=
  m.map Prod.fst

/-- dict[k] = v: replace the entry under key k, or append it. -/
def aset {α : Type} (m : List (ℕ × α)) (k : ℕ) (v : α) : List (ℕ × α) :=
  if k ∈ akeys m then m.map (fun p => if p.1 = k then (p.1, v) else p)
  else m ++ [(k, v)]

/-- del dict[k] / dict.pop(k, None). -/
def aerase {α : Type} (m : List (ℕ × α)) (k : ℕ) : List (ℕ × α) :=
  m.filter (fun p => !(p.1 == k))

/-- Configuration fields consumed by the engine (config.AppConfig:
total_current_limit, voltage; phases per spec section 3, the HA-variant
config module with a phases field is not among the provided sources). -/
structure Config where
  total_current_limit : ℚ := 32
  voltage : ℚ := 230
  phases : ℚ := 1
deriving DecidableEq

/-- Mutable LoadManager state (load_manager.LoadManager fields). -/
structure LMState where
  mode : OperationMode := OperationMode.PV_PLUS_GRID
  hysteresis_threshold : ℚ := 2
  hysteresis_delay : ℚ := 10
  ramp_up_delay : ℚ := 30
  stations : List StationStatus := []
  pv : PVData := {}
  last_allocations : List (ℕ × ℚ) := []
  last_ramp_up_time : List (ℕ × ℚ) := []
  pause_pending : List (ℕ × ℚ) := []
deriving DecidableEq

/-- min(values) of a python list (defined on nonempty lists in the source). -/
def listMin (l : List ℚ) : ℚ :=
  match l with
  | [] => 0
  | h :: t => t.foldl min h

/-- load_manager._get_available_current: PV surplus watts to available amps,
0 when stale, window minimum under the cloud-variance test (population
variance, as written there). -/
def getAvailableCurrent (cfg : Config) (pv : PVData) (now : ℚ) : ℚ :=
  if PV_STALE_TIMEOUT < now - pv.last_update then 0
  else
    if 3 ≤ pv.history.length then
      let values := pv.history.map PVSample.value
      let mean := values.sum / (values.length : ℚ)
      let variancePop := (values.map (fun v => (v - mean) ^ 2)).sum / (values.length : ℚ)
      if CLOUD_DETECTION_VARIANCE_THRESHOLD < variancePop then
        max 0 (listMin values / (cfg.voltage * cfg.phases))
      else max 0 (pv.surplus_w / (cfg.voltage * cfg.phases))
    else max 0 (pv.surplus_w / (cfg.voltage * cfg.phases))

/-- Step 4 of compute_allocations for one station: per-station cap, minimum
current and pause hysteresis; acc = (allocations, pause_pending). -/
def step4Station (cfg : Config) (hyst_delay hyst_threshold now : ℚ)
    (acc : List (ℕ × ℚ) × List (ℕ × ℚ)) (s : StationStatus) :
    List (ℕ × ℚ) × List (ℕ × ℚ) :=
  if min (lookupD acc.1 s.station_id 0) cfg.total_current_limit < MIN_STATION_CURRENT then
    if s.is_charging then
      if s.station_id ∈ akeys acc.2 then
        if now - lookupD acc.2 s.station_id 0 < hyst_delay then
          (aset acc.1 s.station_id MIN_STATION_CURRENT, acc.2)
        else
          (aset acc.1 s.station_id 0, aerase acc.2 s.station_id)
      else
        (aset acc.1 s.station_id MIN_STATION_CURRENT, aset acc.2 s.station_id now)
    else
      (aset acc.1 s.station_id 0, acc.2)
  else
    if s.state = StationState.PAUSED ∧
        min (lookupD acc.1 s.station_id 0) cfg.total_current_limit
          < MIN_STATION_CURRENT + hyst_threshold then
      (aset acc.1 s.station_id 0, aerase acc.2 s.station_id)
    else
      (aset acc.1 s.station_id (min (lookupD acc.1 s.station_id 0) cfg.total_current_limit),
        aerase acc.2 s.station_id)

/-- Step 5 of compute_allocations for one station: ramp control;
acc = (allocations, last_ramp_up_time), old values read from last_allocations. -/
def step5Fold (last_allocations : List (ℕ × ℚ)) (ramp_up_delay now : ℚ)
    (acc : List (ℕ × ℚ) × List (ℕ × ℚ)) (s : StationStatus) :
    List (ℕ × ℚ) × List (ℕ × ℚ) :=
  if lookupD last_allocations s.station_id 0 < lookupD acc.1 s.station_id 0 ∧
      0 < lookupD last_allocations s.station_id 0 then
    if now - lookupD acc.2 s.station_id 0 < ramp_up_delay then
      (aset acc.1 s.station_id (lookupD last_allocations s.station_id 0), acc.2)
    else
      (aset acc.1 s.station_id
          (min (lookupD acc.1 s.station_id 0)
            (lookupD last_allocations s.station_id 0 + MAX_RAMP_UP_STEP)),
        aset acc.2 s.station_id now)
  else acc

/-- Steps 2 and 3 of compute_allocations: equal initial distribution, then the
spare-capacity bonus for charging stations (overbooking as written in the
provided load_manager.py). -/
def step23 (cfg : Config) (active_stations : List StationStatus) (budget_amps : ℚ) :
    List (ℕ × ℚ) :=
  let equal_share := budget_amps / (active_stations.length : ℚ)
  let allocations0 := active_stations.map (fun s => (s.station_id, equal_share))
  let spare := max 0 (cfg.total_current_limit - (active_stations.map StationStatus.actual_current).sum)
  let hungry_stations :=
    (active_stations.filter fun s => s.is_charging && decide (0 < s.actual_current)).map
      StationStatus.station_id
  if 0 < spare ∧ hungry_stations ≠ [] then
    allocations0.map (fun p =>
      if p.1 ∈ hungry_stations then
        (p.1, min (equal_share + spare / (hungry_stations.length : ℚ)) cfg.total_current_limit)
      else p)
  else allocations0

/-- Result of an allocation cycle (models.AllocationResult). -/
structure AllocationResult where
  allocations : List (ℕ × ℚ)
  total_allocated : ℚ
  mode : OperationMode
deriving DecidableEq

/-- load_manager.compute_allocations: the full pipeline for one tick, returning
the result and the updated manager state. -/
def computeAllocations (cfg : Config) (st : LMState) (now : ℚ) :
    AllocationResult × LMState :=
  let active_stations := st.stations.filter StationStatus.is_active
  if active_stations = [] then
    ({ allocations := [], total_allocated := 0, mode := st.mode }, st)
  else
    let budget0 :=
      if st.mode = OperationMode.PV_ONLY then getAvailableCurrent cfg st.pv now
      else cfg.total_current_limit
    let budget_amps := max 0 (min budget0 cfg.total_current_limit)
    let allocations1 := step23 cfg active_stations budget_amps
    let s4 := active_stations.foldl
      (step4Station cfg st.hysteresis_delay st.hysteresis_threshold now)
      (allocations1, st.pause_pending)
    let s5 := active_stations.foldl
      (step5Fold st.last_allocations st.ramp_up_delay now)
      (s4.1, st.last_ramp_up_time)
    ({ allocations := s5.1, total_allocated := (s5.1.map Prod.snd).sum, mode := st.mode },
      { st with last_allocations := s5.1, pause_pending := s4.2, last_ramp_up_time := s5.2 })

/-- Python built-in round as used on setpoints: nearest integer, ties to even. -/
def pround (x : ℚ) : ℤ :=
  if x - (⌊x⌋ : ℚ) < 1/2 then ⌊x⌋
  else if 1/2 < x - (⌊x⌋ : ℚ) then ⌊x⌋ + 1
  else if ⌊x⌋ % 2 = 0 then ⌊x⌋ else ⌊x⌋ + 1

/-- The JSON body published to the OpenEVSE override endpoint by
evse_manager.set_current: a state string plus an optional charge_current. -/
structure OverridePayload where
  state : String
  charge_current : Option ℤ
deriving DecidableEq

/-- evse_manager.set_current: round the requested amps, suppress the send when
it matches the last sent setpoint, pause below MIN_STATION_CURRENT, otherwise
activate with the rounded charge current; returns the list of emitted override
payloads and the updated last-sent map. -/
def set_current (known_stations : List ℕ) (last_sent_setpoint : List (ℕ × ℤ))
    (station_id : ℕ) (amps : ℚ) : List OverridePayload × List (ℕ × ℤ) :=
  if station_id ∉ known_stations then ([], last_sent_setpoint)
  else
    if lookupO last_sent_setpoint station_id = some (pround amps) then
      ([], last_sent_setpoint)
    else if ((pround amps : ℤ) : ℚ) < MIN_STATION_CURRENT then
      ([{ state := "disabled", charge_current := none }],
        aset last_sent_setpoint station_id (pround amps))
    else
      ([{ state := "active", charge_current := some (pround amps) }],
        aset last_sent_setpoint station_id (pround amps))

/-- statistics.variance: the unbiased (n-1) sample variance, none when fewer
than two data points (StatisticsError). -/
def variance (xs : List ℚ) : Option ℚ :=
  if xs.length < 2 then none
  else
    some ((xs.map (fun x => (x - xs.sum / (xs.length : ℚ)) ^ 2)).sum
      / ((xs.length : ℚ) - 1))

/-- pv_monitor.is_cloud_detected: false on fewer than 3 samples or when the
variance is unavailable, else compare the sample variance of the history
values against CLOUD_DETECTION_VARIANCE_THRESHOLD. -/
def is_cloud_detected (history : List PVSample) : Bool :=
  if history.length < 3 then false
  else
    match variance (history.map PVSample.value) with
    | none => false
    | some v => decide (CLOUD_DETECTION_VARIANCE_THRESHOLD < v)

/-- Modelled from the spec: one iteration of the Step 3 iterative overbooking
reclaim (spec 4.E); the iterative-reclaim engine variant is described by the
spec but its module is not among the provided sources (only its constants
ACTUAL_TOLERANCE, SLACK_BUFFER and OVERBOOKING_ITERATIONS appear in const.py).
Each list entry is a pair (actual_current, alloc): a station whose actual lies
in (0, alloc - ACTUAL_TOLERANCE) with positive unused = alloc - actual -
SLACK_BUFFER donates unused to the slack pool and is trimmed to actual +
SLACK_BUFFER; the slack pool is then split equally over the other (hungry)
stations when it is positive and they exist. -/
def reclaimStep (stations : List (ℚ × ℚ)) : List (ℚ × ℚ) :=
  let donor : ℚ × ℚ → Bool := fun p =>
    decide (0 < p.1) && decide (p.1 < p.2 - ACTUAL_TOLERANCE) &&
      decide (0 < p.2 - p.1 - SLACK_BUFFER)
  let slack := ((stations.filter donor).map (fun p => p.2 - p.1 - SLACK_BUFFER)).sum
  let hungryCount := stations.countP (fun p => !donor p)
  stations.map (fun p =>
    if donor p then (p.1, p.1 + SLACK_BUFFER)
    else if 0 < slack ∧ hungryCount ≠ 0 then (p.1, p.2 + slack / (hungryCount : ℚ))
    else p)

/-- Modelled from the spec: the Step 3 reclaim repeated OVERBOOKING_ITERATIONS
times (spec 4.E). -/
def overbookingReclaim (stations : List (ℚ × ℚ)) : List (ℚ × ℚ) :=
  reclaimStep^[OVERBOOKING_ITERATIONS] stations

/-- Modelled from the spec: Step 6 emergency scale-down (spec 4.E); described by
the spec and backed by const.SAFETY_MARGIN but absent from the provided
load_manager variant.  Entries are pairs (actual_current, alloc): when the
summed actuals exceed limit - SAFETY_MARGIN and are positive, every allocation
is multiplied by (limit - SAFETY_MARGIN) / total_actual. -/
def emergencyScaleDown (total_current_limit : ℚ) (stations : List (ℚ × ℚ)) :
    List (ℚ × ℚ) :=
  let total_actual := (stations.map Prod.fst).sum
  if total_current_limit - SAFETY_MARGIN < total_actual ∧ 0 < total_actual then
    stations.map (fun p => (p.1, p.2 * ((total_current_limit - SAFETY_MARGIN) / total_actual)))
  else stations

/-- The dictionary written by load_manager._save_state (the persistence layer
stores and returns it unchanged: write-temp + atomic rename, spec 6.5). -/
structure SavedState where
  mode : String
  hysteresis_threshold : ℚ
  ramp_up_delay : ℚ
deriving DecidableEq

/-- load_manager._save_state: the persisted dictionary. -/
def saveState (st : LMState) : SavedState :=
  { mode := st.mode.value,
    hysteresis_threshold := st.hysteresis_threshold,
    ramp_up_delay := st.ramp_up_delay }

/-- load_manager.restore_state applied to a full saved dictionary: the mode
string is parsed through the OperationMode constructor (an invalid value is
ignored), the tunables are taken as floats. -/
def restoreState (st : LMState) (s : SavedState) : LMState :=
  { st with
    mode := (OperationMode.ofValue s.mode).getD st.mode,
    hysteresis_threshold := s.hysteresis_threshold,
    ramp_up_delay := s.ramp_up_delay }

/-- All values of an allocation map lie in the closed band from 0 to lim. -/
def InRange (lim : ℚ) (m : List (ℕ × ℚ)) : Prop :=
  ∀ p ∈ m, 0 ≤ p.2 ∧ p.2 ≤ lim

/-- Concrete 32 A / 230 V single-phase configuration used in the spec scenarios. -/
def cfgEx : Config :=
  { total_current_limit := 32, voltage := 230, phases := 1 }

/-- Two connected charging stations drawing 1 A each (overbooking snapshot). -/
def stOverbook : LMState :=
  { mode := OperationMode.PV_PLUS_GRID,
    stations := [⟨0, 1, StationState.CHARGING, true⟩, ⟨1, 1, StationState.CHARGING, true⟩] }

/-- PV_ONLY mode with stale PV data (last_update 0) and one connected charging
station drawing 6 A. -/
def stStalePV : LMState :=
  { mode := OperationMode.PV_ONLY,
    stations := [⟨0, 6, StationState.CHARGING, true⟩] }

/-- One connected idle station (frame-effect snapshot). -/
def stSingleIdle : LMState :=
  { stations := [⟨0, 0, StationState.IDLE, true⟩] }

/-- The spec scenario 4 cloud-episode history (watts over one window). -/
def cloudHistory : List PVSample :=
  [⟨2000, 1⟩, ⟨2500, 2⟩, ⟨1000, 3⟩, ⟨2800, 4⟩, ⟨500, 5⟩, ⟨3000, 6⟩]

/- Helper lemmas. -/

lemma mode_grid_ne_pv : OperationMode.PV_PLUS_GRID = OperationMode.PV_ONLY ↔ False :=
  iff_false_intro (by decide)

lemma state_charging_ne_paused : StationState.CHARGING = StationState.PAUSED ↔ False :=
  iff_false_intro (by decide)

/-- Decomposition of compute_allocations on a nonempty active set into its
pipeline stages; each stage is supplied as an equation so that concrete runs
can be evaluated stage by stage. -/
lemma computeAllocations_eq (cfg : Config) (st : LMState) (now : ℚ)
    (active : List StationStatus) (budget : ℚ) (a1 : List (ℕ × ℚ))
    (s4 s5 : List (ℕ × ℚ) × List (ℕ × ℚ)) (tot : ℚ)
    (hact : st.stations.filter StationStatus.is_active = active)
    (hne : active ≠ [])
    (hb : max 0 (min (if st.mode = OperationMode.PV_ONLY then getAvailableCurrent cfg st.pv now
            else cfg.total_current_limit) cfg.total_current_limit) = budget)
    (h1 : step23 cfg active budget = a1)
    (h4 : active.foldl (step4Station cfg st.hysteresis_delay st.hysteresis_threshold now)
            (a1, st.pause_pending) = s4)
    (h5 : active.foldl (step5Fold st.last_allocations st.ramp_up_delay now)
            (s4.1, st.last_ramp_up_time) = s5)
    (ht : (s5.1.map Prod.snd).sum = tot) :
    computeAllocations cfg st now =
      ({ allocations := s5.1, total_allocated := tot, mode := st.mode },
        { st with last_allocations := s5.1, pause_pending := s4.2, last_ramp_up_time := s5.2 }) := by
  subst hb h1 h4 h5 ht
  simp only [computeAllocations]
  rw [hact, if_neg hne]

/-- An invariant preserved by every element step is preserved by foldl. -/
lemma foldl_inv {β σ : Type} (Inv : σ → Prop) (f : σ → β → σ) :
    ∀ (l : List β) (acc : σ), (∀ b ∈ l, ∀ x, Inv x → Inv (f x b)) → Inv acc →
      Inv (l.foldl f acc) := by
  intro l
  induction l with
  | nil => intro acc _ h0; exact h0
  | cons b t ih =>
    intro acc hstep h0
    rw [List.foldl_cons]
    exact ih (f acc b) (fun a ha x hx => hstep a (List.mem_cons_of_mem b ha) x hx)
      (hstep b (List.mem_cons_self b t) acc h0)

lemma lookupO_mem {α : Type} {m : List (ℕ × α)} {k : ℕ} {v : α}
    (h : lookupO m k = some v) : (k, v) ∈ m := by
  induction m with
  | nil => simp [lookupO] at h
  | cons p t ih =>
    rw [lookupO] at h
    by_cases hk : p.1 = k
    · rw [if_pos hk] at h
      injection h with h2
      subst h2
      subst hk
      exact List.mem_cons_self _ _
    · rw [if_neg hk] at h
      exact List.mem_cons_of_mem _ (ih h)

lemma lookupD_range {lim : ℚ} {m : List (ℕ × ℚ)} (h : InRange lim m) (hl : 0 ≤ lim)
    (k : ℕ) : 0 ≤ lookupD m k 0 ∧ lookupD m k 0 ≤ lim := by
  unfold lookupD
  cases hv : lookupO m k with
  | none => exact ⟨le_refl 0, hl⟩
  | some v => exact h (k, v) (lookupO_mem hv)

lemma aset_range {lim : ℚ} {m : List (ℕ × ℚ)} {k : ℕ} {v : ℚ}
    (h : InRange lim m) (hv : 0 ≤ v ∧ v ≤ lim) : InRange lim (aset m k v) := by
  intro p hp
  unfold aset at hp
  split_ifs at hp
  · rcases List.mem_map.mp hp with ⟨q, hq, hpq⟩
    by_cases hqk : q.1 = k
    · rw [if_pos hqk] at hpq
      rw [← hpq]
      exact hv
    · rw [if_neg hqk] at hpq
      rw [← hpq]
      exact h q hq
  · rcases List.mem_append.mp hp with hq | hq
    · exact h p hq
    · rw [List.mem_singleton.mp hq]
      exact hv

/-- Mapping an entry-wise function that keeps first components keeps the keys. -/
lemma akeys_map_fst {α : Type} (m : List (ℕ × α)) (f : ℕ × α → ℕ × α)
    (hf : ∀ p, (f p).1 = p.1) : akeys (m.map f) = akeys m := by
  unfold akeys
  rw [List.map_map]
  have : Prod.fst ∘ f = fun p : ℕ × α => p.1 := funext hf
  rw [this]

lemma akeys_aset {α : Type} {m : List (ℕ × α)} {k : ℕ} (v : α) (h : k ∈ akeys m) :
    akeys (aset m k v) = akeys m := by
  unfold aset
  rw [if_pos h]
  exact akeys_map_fst m _ (fun p => by by_cases hp : p.1 = k <;> simp [hp])

lemma akeys_step4 (cfg : Config) (hd ht now : ℚ) (acc : List (ℕ × ℚ) × List (ℕ × ℚ))
    (s : StationStatus) (h : s.station_id ∈ akeys acc.1) :
    akeys (step4Station cfg hd ht now acc s).1 = akeys acc.1 := by
  unfold step4Station
  split_ifs <;> exact akeys_aset _ h

lemma akeys_step5 (la : List (ℕ × ℚ)) (rd now : ℚ) (acc : List (ℕ × ℚ) × List (ℕ × ℚ))
    (s : StationStatus) (h : s.station_id ∈ akeys acc.1) :
    akeys (step5Fold la rd now acc s).1 = akeys acc.1 := by
  unfold step5Fold
  split_ifs
  · exact akeys_aset _ h
  · exact akeys_aset _ h
  · rfl

lemma step23_keys (cfg : Config) (active : List StationStatus) (budget : ℚ) :
    akeys (step23 cfg active budget) = active.map StationStatus.station_id := by
  have h0 : akeys (active.map (fun s => (s.station_id,
      budget / (active.length : ℚ)))) = active.map StationStatus.station_id := by
    unfold akeys
    rw [List.map_map]
    rfl
  simp only [step23]
  split_ifs
  · rw [akeys_map_fst _ _ (fun p => by by_cases hp : p.1 ∈ (active.filter fun s =>
      s.is_charging && decide (0 < s.actual_current)).map StationStatus.station_id <;>
        simp [hp])]
    exact h0
  · exact h0

lemma step23_range (cfg : Config) (active : List StationStatus) (budget : ℚ)
    (hne : active ≠ []) (hb0 : 0 ≤ budget) (hbl : budget ≤ cfg.total_current_limit)
    (hl0 : 0 ≤ cfg.total_current_limit) :
    InRange cfg.total_current_limit (step23 cfg active budget) := by
  have hn1 : (1 : ℚ) ≤ (active.length : ℚ) := by
    have h := List.length_pos.mpr hne
    exact_mod_cast h
  have hshare0 : 0 ≤ budget / (active.length : ℚ) :=
    div_nonneg hb0 (by positivity)
  have hshareL : budget / (active.length : ℚ) ≤ cfg.total_current_limit :=
    le_trans (div_le_self hb0 hn1) hbl
  have h0 : InRange cfg.total_current_limit
      (active.map (fun s => (s.station_id, budget / (active.length : ℚ)))) := by
    intro p hp
    rcases List.mem_map.mp hp with ⟨q, _, hpq⟩
    rw [← hpq]
    exact ⟨hshare0, hshareL⟩
  simp only [step23]
  split_ifs with hcond
  · intro p hp
    rcases List.mem_map.mp hp with ⟨q, hq, hpq⟩
    by_cases hqk : q.1 ∈ (active.filter fun s =>
        s.is_charging && decide (0 < s.actual_current)).map StationStatus.station_id
    · rw [if_pos hqk] at hpq
      rw [← hpq]
      refine ⟨le_min (add_nonneg hshare0 (div_nonneg (le_max_left 0 _) (by positivity))) hl0,
        min_le_right _ _⟩
    · rw [if_neg hqk] at hpq
      rw [← hpq]
      exact h0 q hq
  · exact h0

lemma step4Station_range (cfg : Config) (hd ht now : ℚ)
    (acc : List (ℕ × ℚ) × List (ℕ × ℚ)) (s : StationStatus)
    (hmin : MIN_STATION_CURRENT ≤ cfg.total_current_limit)
    (h : InRange cfg.total_current_limit acc.1) :
    InRange cfg.total_current_limit (step4Station cfg hd ht now acc s).1 := by
  have hl0 : (0 : ℚ) ≤ cfg.total_current_limit :=
    le_trans (by norm_num [MIN_STATION_CURRENT]) hmin
  have hlk := lookupD_range h hl0 s.station_id
  have hallocv : 0 ≤ min (lookupD acc.1 s.station_id 0) cfg.total_current_limit ∧
      min (lookupD acc.1 s.station_id 0) cfg.total_current_limit ≤ cfg.total_current_limit :=
    ⟨le_min hlk.1 hl0, min_le_right _ _⟩
  unfold step4Station
  split_ifs <;>
    first
      | exact aset_range h ⟨by norm_num [MIN_STATION_CURRENT], hmin⟩
      | exact aset_range h ⟨le_refl 0, hl0⟩
      | exact aset_range h hallocv

lemma step5Fold_range (la : List (ℕ × ℚ)) (rd now : ℚ)
    (acc : List (ℕ × ℚ) × List (ℕ × ℚ)) (s : StationStatus) {lim : ℚ}
    (hla : InRange lim la) (hl0 : 0 ≤ lim) (h : InRange lim acc.1) :
    InRange lim (step5Fold la rd now acc s).1 := by
  have hold := lookupD_range hla hl0 s.station_id
  have hnew := lookupD_range h hl0 s.station_id
  unfold step5Fold
  split_ifs
  · exact aset_range h hold
  · exact aset_range h
      ⟨le_min hnew.1 (add_nonneg hold.1 (by norm_num [MAX_RAMP_UP_STEP])),
        le_trans (min_le_left _ _) hnew.2⟩
  · exact h

lemma map_snd_sum_le {lim : ℚ} : ∀ (m : List (ℕ × ℚ)), InRange lim m →
    (m.map Prod.snd).sum ≤ (m.length : ℚ) * lim := by
  intro m
  induction m with
  | nil => intro _; simp
  | cons p t ih =>
    intro h
    have h1 := h p (List.mem_cons_self p t)
    have h2 := ih (fun q hq => h q (List.mem_cons_of_mem p hq))
    simp only [List.map_cons, List.sum_cons, List.length_cons]
    push_cast
    calc p.2 + (t.map Prod.snd).sum ≤ lim + (t.length : ℚ) * lim := add_le_add h1.2 h2
    _ = ((t.length : ℚ) + 1) * lim := by ring

/-- The keys of the returned allocation map are exactly the ids of the stations
in the filtered active list, in order. -/
lemma computeAllocations_keys (cfg : Config) (st : LMState) (now : ℚ) :
    akeys (computeAllocations cfg st now).1.allocations
      = (st.stations.filter StationStatus.is_active).map StationStatus.station_id := by
  by_cases hact : st.stations.filter StationStatus.is_active = []
  · simp [computeAllocations, hact, akeys]
  · simp only [computeAllocations]
    rw [if_neg hact]
    have hkeys1 := step23_keys cfg (st.stations.filter StationStatus.is_active)
      (max 0 (min (if st.mode = OperationMode.PV_ONLY then getAvailableCurrent cfg st.pv now
        else cfg.total_current_limit) cfg.total_current_limit))
    have hstep4 := foldl_inv
      (fun acc : List (ℕ × ℚ) × List (ℕ × ℚ) =>
        akeys acc.1 = (st.stations.filter StationStatus.is_active).map StationStatus.station_id)
      (step4Station cfg st.hysteresis_delay st.hysteresis_threshold now)
      (st.stations.filter StationStatus.is_active)
      (step23 cfg (st.stations.filter StationStatus.is_active)
        (max 0 (min (if st.mode = OperationMode.PV_ONLY then getAvailableCurrent cfg st.pv now
          else cfg.total_current_limit) cfg.total_current_limit)), st.pause_pending)
      (fun b hb x hx => by
        dsimp only at hx ⊢
        rw [akeys_step4 cfg st.hysteresis_delay st.hysteresis_threshold now x b
          (by rw [hx]; exact List.mem_map_of_mem StationStatus.station_id hb)]
        exact hx)
      hkeys1
    have hstep5 := foldl_inv
      (fun acc : List (ℕ × ℚ) × List (ℕ × ℚ) =>
        akeys acc.1 = (st.stations.filter StationStatus.is_active).map StationStatus.station_id)
      (step5Fold st.last_allocations st.ramp_up_delay now)
      (st.stations.filter StationStatus.is_active)
      (_, st.last_ramp_up_time)
      (fun b hb x hx => by
        dsimp only at hx ⊢
        rw [akeys_step5 st.last_allocations st.ramp_up_delay now x b
          (by rw [hx]; exact List.mem_map_of_mem StationStatus.station_id hb)]
        exact hx)
      hstep4
    exact hstep5

/- Claim theorems. -/

/-- C1 counterexample: with limit 32 and two connected charging stations drawing
1 A each, Step 3 hands each station the full spare 30 A on top of its 16 A
equal share (capped at 32), so the returned allocations are 31 A + 31 A = 62 A
and the claimed bound sum of allocations at most total_current_limit fails. -/
theorem C1_sum_exceeds_limit :
    (computeAllocations cfgEx stOverbook 100).1.total_allocated = 62 ∧
    ¬((computeAllocations cfgEx stOverbook 100).1.total_allocated ≤
        cfgEx.total_current_limit) := by
  have key := computeAllocations_eq cfgEx stOverbook 100
    [⟨0, 1, StationState.CHARGING, true⟩, ⟨1, 1, StationState.CHARGING, true⟩]
    32 [(0, 31), (1, 31)] ([(0, 31), (1, 31)], []) ([(0, 31), (1, 31)], []) 62
    (by simp [stOverbook, StationStatus.is_active])
    (by simp)
    (by norm_num [stOverbook, cfgEx, mode_grid_ne_pv, min_def, max_def])
    (by norm_num [step23, StationStatus.is_charging, cfgEx, min_def, max_def]
        all_goals decide)
    (by simp only [List.foldl_cons, List.foldl_nil, stOverbook]
        norm_num [step4Station, StationStatus.is_charging, cfgEx, min_def, max_def,
          aset, aerase, akeys, lookupD, lookupO, MIN_STATION_CURRENT,
          state_charging_ne_paused])
    (by simp only [List.foldl_cons, List.foldl_nil, stOverbook]
        norm_num [step5Fold, lookupD, lookupO])
    (by norm_num)
  rw [key]
  exact ⟨rfl, by norm_num [cfgEx]⟩

/-- C1 (amended): each single allocation returned by compute_allocations lies in
the band from 0 to total_current_limit (given that the limit is at least
MIN_STATION_CURRENT and the remembered last allocations lie in the band), and
hence the total is at most the number of allocated stations times the limit;
the sum itself can exceed total_current_limit because Step 3 grants every
charging station an equal split of spare = limit - total actual on top of its
equal share. -/
theorem C1_allocation_bounds (cfg : Config) (st : LMState) (now : ℚ)
    (hmin : MIN_STATION_CURRENT ≤ cfg.total_current_limit)
    (hlast : InRange cfg.total_current_limit st.last_allocations) :
    InRange cfg.total_current_limit (computeAllocations cfg st now).1.allocations ∧
    (computeAllocations cfg st now).1.total_allocated ≤
      ((computeAllocations cfg st now).1.allocations.length : ℚ) * cfg.total_current_limit := by
  have hl0 : (0 : ℚ) ≤ cfg.total_current_limit :=
    le_trans (by norm_num [MIN_STATION_CURRENT]) hmin
  by_cases hact : st.stations.filter StationStatus.is_active = []
  · constructor
    · intro p hp
      simp [computeAllocations, hact] at hp
    · simp [computeAllocations, hact]
  · simp only [computeAllocations]
    rw [if_neg hact]
    dsimp only
    have hbud0 : (0 : ℚ) ≤ max 0 (min (if st.mode = OperationMode.PV_ONLY then
        getAvailableCurrent cfg st.pv now else cfg.total_current_limit)
        cfg.total_current_limit) := le_max_left 0 _
    have hbudL : max 0 (min (if st.mode = OperationMode.PV_ONLY then
        getAvailableCurrent cfg st.pv now else cfg.total_current_limit)
        cfg.total_current_limit) ≤ cfg.total_current_limit :=
      max_le hl0 (min_le_right _ _)
    have h1 := step23_range cfg (st.stations.filter StationStatus.is_active) _
      hact hbud0 hbudL hl0
    have h4 := foldl_inv
      (fun acc : List (ℕ × ℚ) × List (ℕ × ℚ) => InRange cfg.total_current_limit acc.1)
      (step4Station cfg st.hysteresis_delay st.hysteresis_threshold now)
      (st.stations.filter StationStatus.is_active)
      (step23 cfg (st.stations.filter StationStatus.is_active) _, st.pause_pending)
      (fun b _ x hx =>
        step4Station_range cfg st.hysteresis_delay st.hysteresis_threshold now x b hmin hx)
      h1
    have h5 := foldl_inv
      (fun acc : List (ℕ × ℚ) × List (ℕ × ℚ) => InRange cfg.total_current_limit acc.1)
      (step5Fold st.last_allocations st.ramp_up_delay now)
      (st.stations.filter StationStatus.is_active)
      (_, st.last_ramp_up_time)
      (fun b _ x hx =>
        step5Fold_range st.last_allocations st.ramp_up_delay now x b hlast hl0 hx)
      h4
    exact ⟨h5, map_snd_sum_le _ h5⟩

/-- C1 witness: the amended bound instantiated on the overbooking snapshot. -/
theorem C1_allocation_bounds_witness :
    InRange cfgEx.total_current_limit (computeAllocations cfgEx stOverbook 100).1.allocations ∧
    (computeAllocations cfgEx stOverbook 100).1.total_allocated ≤
      ((computeAllocations cfgEx stOverbook 100).1.allocations.length : ℚ) *
        cfgEx.total_current_limit :=
  C1_allocation_bounds cfgEx stOverbook 100
    (by norm_num [MIN_STATION_CURRENT, cfgEx])
    (by intro p hp; simp [stOverbook] at hp)

/-- C2: in mode PV_ONLY with stale PV data (last_update 0, now 1000) the engine
still allocates 26 A to a connected charging station drawing 6 A under limit
32 A: the stale budget of Step 1 is 0, but Step 3 grants the station
min(0 + spare/1, 32) with spare = 32 - 6 = 26, contradicting the claim that
every allocation is exactly 0. -/
theorem C2_stale_pv_code_behavior :
    (computeAllocations cfgEx stStalePV 1000).1.allocations = [(0, 26)] ∧
    (26 : ℚ) ≠ 0 := by
  have key := computeAllocations_eq cfgEx stStalePV 1000
    [⟨0, 6, StationState.CHARGING, true⟩] 0 [(0, 26)] ([(0, 26)], []) ([(0, 26)], []) 26
    (by simp [stStalePV, StationStatus.is_active])
    (by simp)
    (by norm_num [stStalePV, cfgEx, getAvailableCurrent, PV_STALE_TIMEOUT, min_def, max_def])
    (by norm_num [step23, StationStatus.is_charging, cfgEx, min_def, max_def])
    (by simp only [List.foldl_cons, List.foldl_nil, stStalePV]
        norm_num [step4Station, StationStatus.is_charging, cfgEx, min_def, max_def,
          aset, aerase, akeys, lookupD, lookupO, MIN_STATION_CURRENT,
          state_charging_ne_paused])
    (by simp only [List.foldl_cons, List.foldl_nil, stStalePV]
        norm_num [step5Fold, lookupD, lookupO])
    (by norm_num)
  rw [key]
  exact ⟨rfl, by norm_num⟩

/-- C3: the iterative overbooking reclaim (spec Step 3, OVERBOOKING_ITERATIONS
iterations) on limit 32 with two charging stations of raw allocation 16 A and
actuals 6 A and 16 A returns 6.5 A (= actual + SLACK_BUFFER) and 25.5 A, and
the reclaimed total stays at most 32 A. -/
theorem C3_overbooking_reclaim :
    overbookingReclaim [(6, 16), (16, 16)] = [(6, 13/2), (16, 51/2)] ∧
    ((overbookingReclaim [(6, 16), (16, 16)]).map Prod.snd).sum ≤ 32 := by
  have h3 : overbookingReclaim [(6, 16), (16, 16)] =
      reclaimStep (reclaimStep (reclaimStep [(6, 16), (16, 16)])) := rfl
  have i1 : reclaimStep [(6, 16), (16, 16)] = [(6, 13/2), (16, 51/2)] := by
    norm_num [reclaimStep, ACTUAL_TOLERANCE, SLACK_BUFFER]
  have i2 : reclaimStep [(6, 13/2), (16, 51/2)] = [(6, 31/2), (16, 33/2)] := by
    norm_num [reclaimStep, ACTUAL_TOLERANCE, SLACK_BUFFER]
  have i3 : reclaimStep [(6, 31/2), (16, 33/2)] = [(6, 13/2), (16, 51/2)] := by
    norm_num [reclaimStep, ACTUAL_TOLERANCE, SLACK_BUFFER]
  rw [h3, i1, i2, i3]
  norm_num

/-- C4: the emergency scale-down step multiplies every allocation by
(limit - SAFETY_MARGIN) / total_actual exactly when the summed actuals exceed
limit - SAFETY_MARGIN and are positive, and does nothing otherwise. -/
theorem C4_emergency_scale_down (total_current_limit : ℚ) (stations : List (ℚ × ℚ)) :
    ((total_current_limit - SAFETY_MARGIN < (stations.map Prod.fst).sum ∧
        0 < (stations.map Prod.fst).sum) →
      emergencyScaleDown total_current_limit stations =
        stations.map (fun p => (p.1, p.2 * ((total_current_limit - SAFETY_MARGIN) /
          (stations.map Prod.fst).sum)))) ∧
    (¬(total_current_limit - SAFETY_MARGIN < (stations.map Prod.fst).sum ∧
        0 < (stations.map Prod.fst).sum) →
      emergencyScaleDown total_current_limit stations = stations) := by
  simp only [emergencyScaleDown]
  exact ⟨fun h => if_pos h, fun h => if_neg h⟩

/-- C4 witness: limit 32, actuals 18 A and 14 A (total 32 > 30), raw
allocations 16/16: scale 30/32 gives 15 A and 15 A. -/
theorem C4_emergency_scale_down_witness :
    emergencyScaleDown 32 [(18, 16), (14, 16)] = [(18, 15), (14, 15)] := by
  have h := (C4_emergency_scale_down 32 [(18, 16), (14, 16)]).1
    (by norm_num [SAFETY_MARGIN])
  rw [h]
  norm_num [SAFETY_MARGIN]

/-- C5: a station is eligible iff vehicle_connected is true and its state is one
of IDLE, CHARGING, PAUSED, and the allocation map returned by
compute_allocations carries exactly the ids of the stations passing that
filter, so every other station receives no allocation. -/
theorem C5_eligibility (cfg : Config) (st : LMState) (now : ℚ) :
    akeys (computeAllocations cfg st now).1.allocations
      = (st.stations.filter StationStatus.is_active).map StationStatus.station_id ∧
    ∀ s : StationStatus, StationStatus.is_active s =
      (s.vehicle_connected && decide (s.state = StationState.IDLE ∨
        s.state = StationState.CHARGING ∨ s.state = StationState.PAUSED)) := by
  refine ⟨computeAllocations_keys cfg st now, fun s => ?_⟩
  unfold StationStatus.is_active
  cases s.vehicle_connected <;> cases s.state <;> rfl

/-- C6: cloud detection returns true iff the history holds at least 3 samples
and their unbiased sample variance exceeds
CLOUD_DETECTION_VARIANCE_THRESHOLD; an unavailable variance yields false. -/
theorem C6_cloud_detection_iff (history : List PVSample) :
    is_cloud_detected history = true ↔
      3 ≤ history.length ∧ ∃ v, variance (history.map PVSample.value) = some v ∧
        CLOUD_DETECTION_VARIANCE_THRESHOLD < v := by
  unfold is_cloud_detected
  split_ifs with h3
  · simp only [Bool.false_eq_true, false_iff]
    intro hc
    exact absurd hc.1 (by omega)
  · have h3' : 3 ≤ history.length := by omega
    cases hv : variance (history.map PVSample.value) with
    | none => simp [h3']
    | some v => simp [h3']

/-- C6 witness: the spec scenario 4 history (variance 3080000/3 over 500)
is detected as cloudy. -/
theorem C6_cloud_detection_iff_witness : is_cloud_detected cloudHistory = true := by
  apply (C6_cloud_detection_iff cloudHistory).mpr
  refine ⟨by norm_num [cloudHistory], 3080000/3, ?_,
    by norm_num [CLOUD_DETECTION_VARIANCE_THRESHOLD]⟩
  norm_num [cloudHistory, variance]

/-- C7: ramp control for one station: a non-increase (or an increase from a
remembered allocation of 0) is applied unchanged; an increase within
ramp_up_delay of the last ramp-up is held at the old allocation; otherwise the
increase is capped at old + MAX_RAMP_UP_STEP and the ramp-up time is set to
now. -/
theorem C7_ramp_control (last_allocations : List (ℕ × ℚ)) (ramp_up_delay now : ℚ)
    (acc : List (ℕ × ℚ) × List (ℕ × ℚ)) (s : StationStatus) :
    (¬(lookupD last_allocations s.station_id 0 < lookupD acc.1 s.station_id 0) →
      step5Fold last_allocations ramp_up_delay now acc s = acc) ∧
    (lookupD last_allocations s.station_id 0 = 0 →
      step5Fold last_allocations ramp_up_delay now acc s = acc) ∧
    (lookupD last_allocations s.station_id 0 < lookupD acc.1 s.station_id 0 →
      0 < lookupD last_allocations s.station_id 0 →
      now - lookupD acc.2 s.station_id 0 < ramp_up_delay →
      step5Fold last_allocations ramp_up_delay now acc s =
        (aset acc.1 s.station_id (lookupD last_allocations s.station_id 0), acc.2)) ∧
    (lookupD last_allocations s.station_id 0 < lookupD acc.1 s.station_id 0 →
      0 < lookupD last_allocations s.station_id 0 →
      ¬(now - lookupD acc.2 s.station_id 0 < ramp_up_delay) →
      step5Fold last_allocations ramp_up_delay now acc s =
        (aset acc.1 s.station_id
            (min (lookupD acc.1 s.station_id 0)
              (lookupD last_allocations s.station_id 0 + MAX_RAMP_UP_STEP)),
          aset acc.2 s.station_id now)) := by
  unfold step5Fold
  refine ⟨fun h => if_neg (fun hc => h hc.1),
    fun h0 => if_neg (fun hc => absurd hc.2 (by rw [h0]; exact lt_irrefl 0)),
    fun h1 h2 h3 => ?_, fun h1 h2 h3 => ?_⟩
  · rw [if_pos ⟨h1, h2⟩, if_pos h3]
  · rw [if_pos ⟨h1, h2⟩, if_neg h3]

/-- C7 witness: old allocation 10 A, requested 20 A, delay expired: applied
value is min 20 (10 + 4) = 14 A and the ramp-up time is recorded. -/
theorem C7_ramp_control_witness :
    step5Fold [(0, 10)] 30 100 ([(0, 20)], []) ⟨0, 0, StationState.CHARGING, true⟩
      = ([(0, 14)], [(0, 100)]) := by
  have h := (C7_ramp_control [(0, 10)] 30 100 ([(0, 20)], [])
      ⟨0, 0, StationState.CHARGING, true⟩).2.2.2
    (by norm_num [lookupD, lookupO]) (by norm_num [lookupD, lookupO])
    (by norm_num [lookupD, lookupO])
  rw [h]
  norm_num [aset, akeys, lookupD, lookupO, MAX_RAMP_UP_STEP, min_def]

/-- C8: the dispatcher with a = round(amps) emits nothing when a equals the
last sent setpoint; otherwise it emits the pause (disabled) payload exactly
when a is below MIN_STATION_CURRENT and the activate payload carrying charge
current a otherwise, recording a as the new last-sent setpoint in both
non-suppressed cases. -/
theorem C8_dispatch_cases (known_stations : List ℕ) (last_sent : List (ℕ × ℤ))
    (station_id : ℕ) (amps : ℚ) (hk : station_id ∈ known_stations) :
    (lookupO last_sent station_id = some (pround amps) →
      set_current known_stations last_sent station_id amps = ([], last_sent)) ∧
    (lookupO last_sent station_id ≠ some (pround amps) →
      ((pround amps : ℤ) : ℚ) < MIN_STATION_CURRENT →
      set_current known_stations last_sent station_id amps =
        ([{ state := "disabled", charge_current := none }],
          aset last_sent station_id (pround amps))) ∧
    (lookupO last_sent station_id ≠ some (pround amps) →
      ¬(((pround amps : ℤ) : ℚ) < MIN_STATION_CURRENT) →
      set_current known_stations last_sent station_id amps =
        ([{ state := "active", charge_current := some (pround amps) }],
          aset last_sent station_id (pround amps))) := by
  unfold set_current
  rw [if_neg (not_not_intro hk)]
  refine ⟨fun h => if_pos h, fun h hlt => ?_, fun h hge => ?_⟩
  · rw [if_neg h, if_pos hlt]
  · rw [if_neg h, if_neg hge]

/-- C8 witness: station 1 with last sent -1 and requested 16.2 A: rounded to
16, not suppressed, not below the minimum, so the activate payload with 16 A
is emitted and 16 recorded. -/
theorem C8_dispatch_cases_witness :
    set_current [1] [(1, -1)] 1 (81/5)
      = ([{ state := "active", charge_current := some 16 }], [(1, 16)]) := by
  have hpr : pround (81/5) = 16 := by
    norm_num [pround]
  have h := (C8_dispatch_cases [1] [(1, -1)] 1 (81/5) (by simp)).2.2
    (by rw [hpr]; norm_num [lookupO])
    (by rw [hpr]; norm_num [MIN_STATION_CURRENT])
  rw [h, hpr]
  norm_num [aset, akeys, lookupO]

/-- C9: restoring the dictionary produced by _save_state recovers the mode for
every mode value and returns the persisted tunables unchanged. -/
theorem C9_persistence_roundtrip (st fresh : LMState) :
    (restoreState fresh (saveState st)).mode = st.mode ∧
    (restoreState fresh (saveState st)).hysteresis_threshold = st.hysteresis_threshold ∧
    (restoreState fresh (saveState st)).ramp_up_delay = st.ramp_up_delay := by
  refine ⟨?_, rfl, rfl⟩
  cases hm : st.mode <;>
    simp [restoreState, saveState, OperationMode.value, OperationMode.ofValue, hm]

/-- C10: on a nonempty active set the stored last-allocation map after
compute_allocations is exactly the returned allocation map, whose keys are the
active station ids of this tick (entries of absent stations are discarded);
and a station with no remembered allocation (default 0) passes ramp control
unchanged. -/
theorem C10_last_allocations_frame (cfg : Config) (st : LMState) (now : ℚ)
    (hne : st.stations.filter StationStatus.is_active ≠ []) :
    (computeAllocations cfg st now).2.last_allocations
        = (computeAllocations cfg st now).1.allocations ∧
    akeys (computeAllocations cfg st now).1.allocations
        = (st.stations.filter StationStatus.is_active).map StationStatus.station_id ∧
    (∀ acc s, lookupD st.last_allocations s.station_id 0 = 0 →
      step5Fold st.last_allocations st.ramp_up_delay now acc s = acc) := by
  refine ⟨?_, computeAllocations_keys cfg st now, fun acc s h0 => ?_⟩
  · simp only [computeAllocations]
    rw [if_neg hne]
  · unfold step5Fold
    exact if_neg (fun hc => absurd hc.2 (by rw [h0]; exact lt_irrefl 0))

/-- C10 witness: the frame property on a single connected idle station. -/
theorem C10_last_allocations_frame_witness :
    (computeAllocations cfgEx stSingleIdle 5).2.last_allocations
      = (computeAllocations cfgEx stSingleIdle 5).1.allocations :=
  (C10_last_allocations_frame cfgEx stSingleIdle 5
    (by simp [stSingleIdle, StationStatus.is_active])).1

end OpenEVSE
